import Mathlib

/-!
Verification development for the kino-scraper repository.

The Python sources (main.py, database.py, email_sender.py) are embedded
shallowly: Python `str` operations become executable functions on `List Char`
wrapped in `String`, the SQLite store becomes an explicit record of row lists,
and the two HTTP collaborators (listing endpoint, detail pages) become an
explicit `Upstream` record of deterministic response functions.  Uncaught
Python exceptions are modelled as an `Option String` "exception" component
threaded through the pipeline: `some msg` means the process died with that
exception after having produced the state committed so far.
-/

namespace Kino

/-! ## Python string primitives -/

/-- The characters removed by Python `str.strip()` with no argument
(ASCII whitespace; the scraper's inputs contain no exotic unicode spaces). -/
def isPySpace (c : Char) : Bool :=
  c = ' ' || c = '\t' || c = '\n' || c = '\r' || c = Char.ofNat 11 || c = Char.ofNat 12

/-- Python `str.strip()`: drop leading and trailing whitespace. -/
def pyStrip (s : List Char) : List Char :=
  ((s.dropWhile isPySpace).reverse.dropWhile isPySpace).reverse

/-- `listStartsWith s p` is true when `p` is an initial segment of `s`. -/
def listStartsWith : List Char → List Char → Bool
  | _, [] => true
  | [], _ :: _ => false
  | a :: s, b :: p => decide (a = b) && listStartsWith s p

/-- Python substring containment `p in s` (true somewhere in `s`). -/
def containsSub (s p : List Char) : Bool :=
  match s with
  | [] => listStartsWith [] p
  | _ :: t => listStartsWith s p || containsSub t p

/-- Split `s` around the first occurrence of `sep`:
`some (before, after)` with `after` starting right past the occurrence. -/
def splitFirst (s sep : List Char) : Option (List Char × List Char) :=
  if listStartsWith s sep then some ([], s.drop sep.length)
  else
    match s with
    | [] => none
    | c :: t => (splitFirst t sep).map (fun p => (c :: p.1, p.2))

/-- The text before the first occurrence of `sep` (all of `s` if absent):
Python `s.split(sep)[0]`. -/
def beforeFirst (s sep : List Char) : List Char :=
  match splitFirst s sep with
  | some p => p.1
  | none => s

/-- Worker for Python `str.replace` with explicit fuel (structural recursion;
the wrapper below supplies fuel `s.length`, always enough because a match
consumes at least one character of a nonempty pattern). -/
def replaceAllF : Nat → List Char → List Char → List Char → List Char
  | _, s, [], _ => s
  | 0, s, _ :: _, _ => s
  | f + 1, s, p :: ps, rep =>
    match s with
    | [] => []
    | c :: t =>
      if listStartsWith (c :: t) (p :: ps) then
        rep ++ replaceAllF f ((c :: t).drop (p :: ps).length) (p :: ps) rep
      else c :: replaceAllF f t (p :: ps) rep

/-- Python `s.replace(pat, rep)`: replace every non-overlapping occurrence,
scanning left to right.  The scraper never calls `replace` with an empty
pattern, so that case just returns `s`. -/
def replaceAll (s pat rep : List Char) : List Char :=
  replaceAllF s.length s pat rep

/-- First index at which `pat` matches inside `s` (spec-side primitive). -/
def firstMatchIdx (s pat : List Char) : Option Nat :=
  if listStartsWith s pat then some 0
  else
    match s with
    | [] => none
    | _ :: t => (firstMatchIdx t pat).map (· + 1)

/-- Spec-side: everything strictly after the first occurrence of `pat`. -/
def dropThroughFirst (s pat : List Char) : List Char :=
  match firstMatchIdx s pat with
  | some i => s.drop (i + pat.length)
  | none => s

/-- Spec-side: everything strictly before the first occurrence of `pat`. -/
def truncAtFirst (s pat : List Char) : List Char :=
  match firstMatchIdx s pat with
  | some i => s.take i
  | none => s

/-- Spec-side occurrence test. -/
def occursIn (s pat : List Char) : Bool := (firstMatchIdx s pat).isSome

/-! String-level wrappers. -/

/-- Python `str.lower()` (ASCII; the searched tokens are all ASCII). -/
def pyLower (s : String) : String := ⟨s.data.map Char.toLower⟩

/-- Python `pat in s`. -/
def pyContains (s pat : String) : Bool := containsSub s.data pat.data

/-- Python `s.strip()`. -/
def pyStripS (s : String) : String := ⟨pyStrip s.data⟩

/-- Python `s.replace(pat, rep)`. -/
def pyReplace (s pat rep : String) : String := ⟨replaceAll s.data pat.data rep.data⟩

/-- Python `s.split(sep)[0]`. -/
def beforeFirstS (s sep : String) : String := ⟨beforeFirst s.data sep.data⟩

/-- Python `s.split(sep)[1]` (the segment between the first and second
occurrences of `sep`), only used under a `sep in s` guard; if `sep` does not
occur, returns `s` (Python would raise, but the callers guard). -/
def splitIdx1 (s sep : String) : String :=
  match splitFirst s.data sep.data with
  | some p => ⟨beforeFirst p.2 sep.data⟩
  | none => s

/-! ## Detail-page text extraction (main.py lines 97-157) -/

/-- First reassignment of `_clean_genre_text` (main.py lines 100-101):
if the exact substring "gatunek:" occurs, take `split("gatunek:")[1].strip()`. -/
def genre_strip_label (t : String) : String :=
  if pyContains t "gatunek:" then pyStripS (splitIdx1 t "gatunek:") else t

/-- Second reassignment of `_clean_genre_text` (main.py lines 104-105). -/
def genre_strip_age (t : String) : String :=
  if pyContains t "kategoria wiekowa:" then pyStripS (beforeFirstS t "kategoria wiekowa:") else t

/-- Third reassignment of `_clean_genre_text` (main.py lines 108-109). -/
def genre_strip_dur (t : String) : String :=
  if pyContains t "czas trwania:" then pyStripS (beforeFirstS t "czas trwania:") else t

/-- embeds `KinoScraper._clean_genre_text` (main.py lines 97-111). -/
def clean_genre_text (t : String) : String :=
  genre_strip_dur (genre_strip_age (genre_strip_label t))

/-- embeds the regex `re.search(r'(\d{4})$', t)` of `_clean_production_text`:
the match succeeds iff the last four characters (before an optional single
trailing newline, which `$` also accepts) are ASCII digits, and the group is
those four characters. -/
def yearMatch (t : String) : Option String :=
  let core := if t.data.getLast? = some '\n' then t.data.dropLast else t.data
  let l4 := (core.reverse.take 4).reverse
  if l4.length = 4 && l4.all Char.isDigit then some ⟨l4⟩ else none

/-- embeds `KinoScraper._clean_production_text` (main.py lines 113-125).
Note the source guards on `"produkcja:" in production_text.lower()` but then
removes the label with a case-sensitive `replace("produkcja:", "")`. -/
def clean_production_text (production_text : String) : String × String :=
  let t :=
    if pyContains (pyLower production_text) "produkcja:" then
      pyStripS (pyReplace production_text "produkcja:" "")
    else production_text
  match yearMatch t with
  | some y => (pyStripS (pyReplace t y ""), y)
  | none => (t, "Unknown")

/-- A detail-page heading as the scraper sees it: the `h4`'s own text and the
paragraph texts found under its structural parent (`find_parent` +
`find_all('p')`).  The HTML tree itself is abstracted away. -/
abbrev H4 := String × List String

/-- embeds `KinoScraper._fetch_genre` (main.py lines 127-133): the first `h4`
whose lowered text contains "gatunek", cleaned, together with its parent's
paragraphs; `("Genre not found", none)` when no heading matches. -/
def fetch_genre_with_parent (h4s : List H4) : String × Option (List String) :=
  match h4s.find? (fun h => pyContains (pyLower h.1) "gatunek") with
  | some h => (clean_genre_text (pyStripS h.1), some h.2)
  | none => ("Genre not found", none)

/-- The genre component of `_fetch_genre`. -/
def fetch_genre (h4s : List H4) : String := (fetch_genre_with_parent h4s).1

/-- embeds `KinoScraper._fetch_description` (main.py lines 135-146). -/
def fetch_description (h4s : List H4) (parent : Option (List String)) : String :=
  match parent with
  | some paras =>
    let ps := (paras.map pyStripS).filter (fun p => !(decide (p = "")))
    if ps = [] then "Description not found" else String.intercalate "\n" ps
  | none =>
    match h4s.find? (fun h => pyContains (pyLower h.1) "opis") with
    | some h =>
      let ps := (h.2.map pyStripS).filter (fun p => !(decide (p = "")))
      if ps = [] then "Description not found" else String.intercalate "\n" ps
    | none => "Description not found"

/-- embeds `KinoScraper._fetch_production` (main.py lines 148-157) over the
texts of the `div class="f4 crrow"` blocks. -/
def fetch_production (divs : List String) : String × String :=
  match divs.find? (fun d => pyContains (pyLower d) "produkcja:") with
  | some d => clean_production_text (pyStripS d)
  | none => ("Unknown", "Unknown")

/-! ## The persisted store (database.py)

A `movies` row and a `screenings` row, and the store as explicit row lists.
`nextId` models the `AUTOINCREMENT` id counter (SQLite assigns 1 to the first
row).  The `year` column is kept as the string the scraper passes; equal
inputs compare equal exactly as they do through SQLite's affinity rules, which
is all `save_movie`'s `(title, year)` lookup needs. -/

structure MovieRow where
  id : Nat
  title : String
  genre : String
  description : String
  year : String
  countries : String
deriving DecidableEq

structure ScreeningRow where
  movie_id : Nat
  date : String
  time : String
deriving DecidableEq

structure DB where
  movies : List MovieRow
  screenings : List ScreeningRow
  nextId : Nat
deriving DecidableEq

/-- embeds `Database.fetch_movie_titles_and_years` (database.py lines 118-125):
`SELECT title, year FROM movies`. -/
def fetch_movie_titles_and_years (db : DB) : List (String × String) :=
  db.movies.map (fun r => (r.title, r.year))

/-- embeds `Database.save_movie` (database.py lines 79-97): look up the first
row with this `(title, year)`; update its mutable fields in place if found,
else insert a fresh row; return the row id. -/
def save_movie (db : DB) (title genre description year countries : String) : DB × Nat :=
  match db.movies.find? (fun r => decide (r.title = title) && decide (r.year = year)) with
  | some r =>
    ({ db with movies := db.movies.map (fun q =>
        if q.id = r.id then { q with genre := genre, description := description, countries := countries }
        else q) }, r.id)
  | none =>
    ({ db with
        movies := db.movies ++ [⟨db.nextId, title, genre, description, year, countries⟩],
        nextId := db.nextId + 1 }, db.nextId)

/-- One `INSERT OR IGNORE INTO screenings` statement: a no-op when the
`(movie_id, date, time)` triple is already present. -/
def add_screening (db : DB) (mid : Nat) (date time : String) : DB :=
  if db.screenings.any (fun s =>
      decide (s.movie_id = mid) && decide (s.date = date) && decide (s.time = time)) then db
  else { db with screenings := db.screenings ++ [⟨mid, date, time⟩] }

/-- embeds `Database.save_screenings` (database.py lines 99-116); the guard
rejects the falsy movie id (`None`/`0`). -/
def save_screenings (db : DB) (mid : Nat) (scr : List (String × List String)) : DB :=
  if mid = 0 then db
  else scr.foldl (fun d p => p.2.foldl (fun d2 tm => add_screening d2 mid p.1 tm) d) db

/-! ## In-flight records and the upstream collaborators -/

/-- The transient per-title record of `self.movies` (main.py line 24): title,
detail link, date → times, and the detail fields added by
`_fetch_movie_details` when its fetch succeeds (absent dict keys = `none`). -/
structure InFlight where
  title : String
  link : String
  screenings : List (String × List String)
  genre? : Option String
  description? : Option String
  countries? : Option String
  year? : Option String
deriving DecidableEq

/-- One `div class="pastyt"` block of a listing fragment, as BeautifulSoup
hands it to `_parse_movies`: the title anchor's stripped text and relative
href when the anchor exists, and the sibling block's screening times
(empty when the sibling or its anchors are absent). -/
structure Entry where
  titleTag : Option (String × String)
  times : List String
deriving DecidableEq

/-- Outcome of `requests.get` on the listing endpoint: a raised transport
error, or a response with a status code and the optional `lista` field of the
JSON body. -/
inductive ListingResult where
  | transportError (msg : String)
  | response (status : Nat) (lista : Option String)

/-- A parsed detail page: each `h4` (text with its parent's paragraph texts)
and the texts of the `div class="f4 crrow"` blocks. -/
structure DetailPage where
  h4s : List H4
  prodDivs : List String
deriving DecidableEq

/-- Outcome of `requests.get` on a movie's detail link. -/
inductive DetailResult where
  | transportError (msg : String)
  | response (status : Nat) (page : DetailPage)

def ListingResult.isTransport : ListingResult → Bool
  | .transportError _ => true
  | .response _ _ => false

def DetailResult.isTransport : DetailResult → Bool
  | .transportError _ => true
  | .response _ _ => false

/-- The detail fetch came back with a non-success HTTP status. -/
def DetailResult.failedStatus : DetailResult → Bool
  | .transportError _ => false
  | .response s _ => decide (s ≠ 200)

/-- The detail fetch succeeded (status 200). -/
def DetailSuccess (r : DetailResult) : Prop := ∃ pg, r = .response 200 pg

/-- The deterministic external world of one run: the listing endpoint keyed by
date, BeautifulSoup's extraction of entries from a `lista` HTML fragment, and
the detail pages keyed by absolute link. -/
structure Upstream where
  listing : String → ListingResult
  parseEntries : String → List Entry
  detail : String → DetailResult

def base_url : String := "https://www.kinonh.pl/"

/-! ## Listing phase (main.py lines 54-95) -/

/-- One `(date, title, link, times)` observation, the Aggregator's input. -/
structure RawTuple where
  date : String
  title : String
  link : String
  times : List String
deriving DecidableEq

/-- Python dict assignment `screenings[date] = times`: overwrite an existing
key in place, else append (dicts preserve insertion order). -/
def setScreening (scr : List (String × List String)) (date : String) (times : List String) :
    List (String × List String) :=
  if scr.any (fun p => decide (p.1 = date)) then
    scr.map (fun p => if p.1 = date then (date, times) else p)
  else scr ++ [(date, times)]

/-- The Aggregator step (main.py lines 92-94): create the record on first
sight of a title (link taken from this first occurrence), then set that
date's times under its own date key. -/
def addTuple (ms : List InFlight) (tu : RawTuple) : List InFlight :=
  if ms.any (fun m => decide (m.title = tu.title)) then
    ms.map (fun m =>
      if m.title = tu.title then { m with screenings := setScreening m.screenings tu.date tu.times }
      else m)
  else ms ++ [⟨tu.title, tu.link, [(tu.date, tu.times)], none, none, none, none⟩]

/-- The Aggregator over a tuple stream, starting from an empty in-flight map. -/
def aggregate (ts : List RawTuple) : List InFlight := ts.foldl addTuple []

/-- The body of the `for event in soup.find_all(...)` loop of `_parse_movies`
(main.py lines 77-95): skip an entry without a title anchor, skip a title
already in the store (compared by title only, lines 83-86, whatever year is
stored), else aggregate. -/
def parse_entry_step (existing : List (String × String)) (date : String)
    (ms : List InFlight) (e : Entry) : List InFlight :=
  match e.titleTag with
  | none => ms
  | some tl =>
    if existing.any (fun p => decide (p.1 = tl.1)) then ms
    else addTuple ms ⟨date, tl.1, base_url ++ tl.2, e.times⟩

/-- embeds `KinoScraper._fetch_movies_page` (main.py lines 54-64): a transport
error from `requests.get` is not caught and propagates; a non-200 status
returns `None`; a 200 response yields `json().get("lista", "")`. -/
def fetch_movies_page (u : Upstream) (date : String) : Except String (Option String) :=
  match u.listing date with
  | .transportError m => .error m
  | .response status lista => if status = 200 then .ok (some (lista.getD "")) else .ok none

/-- embeds `KinoScraper._parse_movies` (main.py lines 66-95).  Its first
statement reads the store (`_get_existing_movies`, one
`fetch_movie_titles_and_years` call per invocation); a missing or falsy-empty
payload returns with the in-flight map unchanged. -/
def parse_movies (u : Upstream) (db : DB) (ms : List InFlight) (date : String) :
    Except String (List InFlight) :=
  let existing := fetch_movie_titles_and_years db
  match fetch_movies_page u date with
  | .error m => .error m
  | .ok none => .ok ms
  | .ok (some raw) =>
    if raw = "" then .ok ms
    else .ok ((u.parseEntries raw).foldl (parse_entry_step existing date) ms)

/-- The per-date loop of `_get_movies_schedule` (main.py lines 192-193),
also counting the store reads: each `parse_movies` call performs exactly one
`fetch_movie_titles_and_years` read as its first action, so the counter
increases once per date attempted; an uncaught exception aborts the loop with
the in-flight map built so far. -/
def listing_phase_aux (u : Upstream) (db : DB) :
    List String → List InFlight → Nat → Option String × List InFlight × Nat
  | [], ms, reads => (none, ms, reads)
  | d :: rest, ms, reads =>
    match parse_movies u db ms d with
    | .error e => (some e, ms, reads + 1)
    | .ok ms2 => listing_phase_aux u db rest ms2 (reads + 1)

/-! ## Detail phase (main.py lines 159-196) -/

/-- The `self.movies[title].update({...})` of `_fetch_movie_details`. -/
def enrich (m : InFlight) (genre description countries year : String) : InFlight :=
  { m with genre? := some genre, description? := some description,
           countries? := some countries, year? := some year }

/-- embeds `KinoScraper._fetch_movie_details` (main.py lines 159-188) for one
in-flight movie: a transport error propagates (uncaught); a non-200 status is
logged and nothing is persisted; a 200 page is scraped, the in-flight record
enriched, and the movie plus its screenings saved. -/
def fetch_movie_details (u : Upstream) (db : DB) (ms : List InFlight) (m : InFlight) :
    Option String × DB × List InFlight :=
  match u.detail m.link with
  | .transportError e => (some e, db, ms)
  | .response status page =>
    if status = 200 then
      let gp := fetch_genre_with_parent page.h4s
      let description := fetch_description page.h4s (if gp.1 ≠ "Genre not found" then gp.2 else none)
      let cy := fetch_production page.prodDivs
      let ms2 := ms.map (fun x => if x.title = m.title then enrich x gp.1 description cy.1 cy.2 else x)
      let sm := save_movie db m.title gp.1 description cy.2 cy.1
      (none, save_screenings sm.1 sm.2 m.screenings, ms2)
    else (none, db, ms)

/-- The `for movie in self.movies.values()` loop of `_get_movies_schedule`
(main.py lines 195-196). -/
def details_phase (u : Upstream) :
    List InFlight → DB → List InFlight → Option String × DB × List InFlight
  | [], db, ms => (none, db, ms)
  | m :: rest, db, ms =>
    match fetch_movie_details u db ms m with
    | (some e, db2, ms2) => (some e, db2, ms2)
    | (none, db2, ms2) => details_phase u rest db2 ms2

/-- embeds `KinoScraper._get_movies_schedule` (main.py lines 190-198) over an
explicit date window: listing phase from an empty in-flight map, then the
detail loop over the collected records.  The first component is the uncaught
exception, if any; the store and in-flight components are whatever had been
committed when it was raised. -/
def run_pipeline (u : Upstream) (db : DB) (dates : List String) :
    Option String × DB × List InFlight :=
  match listing_phase_aux u db dates [] 0 with
  | (some e, ms, _) => (some e, db, ms)
  | (none, ms, _) => details_phase u ms db ms

/-! ## Notification (main.py lines 204-223, email_sender.py) -/

/-- One element of the `new_movies` payload of `send_new_movies_email`
(main.py lines 208-218); absent detail keys fall back to the `.get` defaults. -/
structure EmailMovie where
  title : String
  link : String
  genre : String
  description : String
  production_year : String
  screening_times : List (String × List String)
deriving DecidableEq

/-- The payload comprehension of `send_new_movies_email`: every in-flight
record is included, whether or not its detail fetch succeeded. -/
def build_new_movies (ms : List InFlight) : List EmailMovie :=
  ms.map (fun m =>
    ⟨m.title, m.link, m.genre?.getD "Not available", m.description?.getD "Not available",
     m.year?.getD "Unknown", m.screenings⟩)

/-- `EmailSender.send_email(self, movie_details, num_days)` declares two
required positional parameters besides `self` (email_sender.py line 145). -/
def send_email_required_args : Nat := 2

/-- The body of `EmailSender.send_email` (email_sender.py lines 147-160): the
whole smtplib interaction is inside `try/except Exception`, so a delivery
failure is printed and swallowed, never re-raised. -/
def send_email_body (_deliveryFails : Bool) : Except String Unit := .ok ()

/-- Python call semantics for `send_email`: binding fewer positional arguments
than the signature requires raises `TypeError` before the body runs. -/
def call_send_email (suppliedArgs : Nat) (deliveryFails : Bool) : Except String Unit :=
  if suppliedArgs < send_email_required_args then
    .error "TypeError: send_email() missing 1 required positional argument: num_days"
  else send_email_body deliveryFails

/-- embeds `KinoScraper.send_new_movies_email` (main.py lines 204-223): build
the payload from every in-flight record; when it is nonempty, call
`email_sender.send_email(new_movies)` — one supplied argument.  Returns the
uncaught exception (if any) and the payload that was built. -/
def send_new_movies_email (ms : List InFlight) (deliveryFails : Bool) :
    Option String × List EmailMovie :=
  let new_movies := build_new_movies ms
  if new_movies = [] then (none, new_movies)
  else
    match call_send_email 1 deliveryFails with
    | .ok _ => (none, new_movies)
    | .error e => (some e, new_movies)

/-- embeds `main()` (main.py lines 230-244) up to the email step: run the
pipeline, then send the notification.  Components: uncaught exception, the
store as committed (never rolled back), and the notification payload that was
built. -/
def main_run (u : Upstream) (db : DB) (dates : List String) (deliveryFails : Bool) :
    Option String × DB × List EmailMovie :=
  match run_pipeline u db dates with
  | (some e, db2, _) => (some e, db2, [])
  | (none, db2, ms) =>
    match send_new_movies_email ms deliveryFails with
    | (exn, payload) => (exn, db2, payload)

/-! ## Derived views used by the theorems -/

/-- The titles currently stored in the `movies` table. -/
def dbTitles (db : DB) : List String := db.movies.map (fun r => r.title)

/-- The titles of an in-flight map, in insertion order. -/
def inFlightTitles (ms : List InFlight) : List String := ms.map (fun m => m.title)

/-- Keep a string unless it is already present (one step). -/
def dedupStep (acc : List String) (t : String) : List String :=
  if acc.any (fun s => decide (s = t)) then acc else acc ++ [t]

/-- First-occurrence deduplication of a list of titles. -/
def dedupKeepFirst (l : List String) : List String := l.foldl dedupStep []

/-- The `(date, title, link, times)` tuples a list of parsed entries yields
(entries without a title anchor yield nothing). -/
def entryTuples (date : String) (entries : List Entry) : List RawTuple :=
  entries.filterMap (fun e => e.titleTag.map (fun tl => ⟨date, tl.1, base_url ++ tl.2, e.times⟩))

/-- The tuples one date contributes: none on a failed fetch or an empty or
missing payload, else the tuples of the parsed entries. -/
def dateTuples (u : Upstream) (date : String) : List RawTuple :=
  match u.listing date with
  | .transportError _ => []
  | .response status lista =>
    if status = 200 then
      if lista.getD "" = "" then [] else entryTuples date (u.parseEntries (lista.getD ""))
    else []

/-- All tuples of a date window, in window order. -/
def allTuples (u : Upstream) : List String → List RawTuple
  | [] => []
  | d :: ds => dateTuples u d ++ allTuples u ds

/-- The Dedup Filter's test: some stored row has this title (year ignored). -/
def existingAnyTitle (db : DB) (t : String) : Bool :=
  (fetch_movie_titles_and_years db).any (fun p => decide (p.1 = t))

/-- The tuples that survive the Dedup Filter against a fixed store. -/
def passTuples (u : Upstream) (db : DB) (dates : List String) : List RawTuple :=
  (allTuples u dates).filter (fun tu => !(existingAnyTitle db tu.title))

/-! ## Spec-side genre extraction (index-based reading of the amended claim) -/

/-- Spec-side label removal: when the exact substring "gatunek:" occurs, take
the segment strictly between its first and second occurrences (to the end if
there is no second), stripped; otherwise keep the text. -/
def strip_label_spec (t : String) : String :=
  if occursIn t.data "gatunek:".data then
    ⟨pyStrip (truncAtFirst (dropThroughFirst t.data "gatunek:".data) "gatunek:".data)⟩
  else t

/-- Spec-side: cut everything from the first exact "kategoria wiekowa:"
onward, stripped; otherwise keep the text. -/
def strip_age_spec (t : String) : String :=
  if occursIn t.data "kategoria wiekowa:".data then
    ⟨pyStrip (truncAtFirst t.data "kategoria wiekowa:".data)⟩
  else t

/-- Spec-side: cut everything from the first exact "czas trwania:" onward,
stripped; otherwise keep the text. -/
def strip_dur_spec (t : String) : String :=
  if occursIn t.data "czas trwania:".data then
    ⟨pyStrip (truncAtFirst t.data "czas trwania:".data)⟩
  else t

/-- Spec-side reading of the amended genre claim: the first heading whose
lowered text contains "gatunek" (stripped) undergoes the three case-sensitive
marker removals; "Genre not found" when no heading matches. -/
def genre_extraction_spec (h4s : List H4) : String :=
  match h4s.find? (fun h => pyContains (pyLower h.1) "gatunek") with
  | some h => strip_dur_spec (strip_age_spec (strip_label_spec (pyStripS h.1)))
  | none => "Genre not found"

/-! ## Concrete fixtures for witnesses and counterexamples -/

/-- A fresh, empty store (AUTOINCREMENT starts at 1). -/
def dbEmpty : DB := ⟨[], [], 1⟩

/-- A detail page whose three extractions all succeed. -/
def pageOk : DetailPage := ⟨[("gatunek: dramat", ["Opis filmu."])], ["Produkcja: Polska 2020"]⟩

/-- A listing entry for "Movie X" with one screening time. -/
def entryX : Entry := ⟨some ("Movie X", "mx"), ["18:00"]⟩

/-- Upstream where date "d1" lists "Movie X" but every detail fetch comes
back with HTTP 404. -/
def uFail : Upstream :=
  ⟨fun d => if d = "d1" then .response 200 (some "X") else .response 404 none,
   fun s => if s = "X" then [entryX] else [],
   fun _ => .response 404 ⟨[], []⟩⟩

/-- Upstream where date "d1" lists "Movie X" and every detail fetch succeeds
with `pageOk`. -/
def uOk : Upstream :=
  ⟨fun d => if d = "d1" then .response 200 (some "X") else .response 404 none,
   fun s => if s = "X" then [entryX] else [],
   fun _ => .response 200 pageOk⟩

/-- Upstream where date "bad" raises a transport error and date "d2" serves a
healthy listing. -/
def uDown : Upstream :=
  ⟨fun d => if d = "bad" then .transportError "ConnectionError" else .response 200 (some "X"),
   fun s => if s = "X" then [entryX] else [],
   fun _ => .response 404 ⟨[], []⟩⟩

/-- Upstream whose every listing succeeds with an empty payload. -/
def uQuiet : Upstream :=
  ⟨fun _ => .response 200 (some ""), fun _ => [], fun _ => .response 404 ⟨[], []⟩⟩

/-! ## Generic list lemmas -/

theorem foldl_pres {α β : Type} (f : β → α → β) (P : β → Prop)
    (h : ∀ b a, P b → P (f b a)) : ∀ (l : List α) (b : β), P b → P (List.foldl f b l)
  | [], _, hb => hb
  | a :: l, b, hb => foldl_pres f P h l (f b a) (h b a hb)

theorem find_of_filter {α : Type} (p q : α → Bool) (l : List α) :
    (l.filter q).find? p = l.find? (fun x => q x && p x) := by
  induction l with
  | nil => rfl
  | cons x t ih =>
    by_cases hq : q x
    · by_cases hp : p x
      · simp [List.filter_cons, hq, List.find?_cons, hp]
      · simp [List.filter_cons, hq, List.find?_cons, hp, ih]
    · simp [List.filter_cons, hq, List.find?_cons, ih]

theorem find_congr_pt {α : Type} (p q : α → Bool) (l : List α) (h : ∀ x, p x = q x) :
    l.find? p = l.find? q := by
  have : p = q := funext h
  rw [this]

theorem find_of_append {α : Type} (p : α → Bool) (l1 l2 : List α) :
    (l1 ++ l2).find? p = match l1.find? p with
      | some x => some x
      | none => l2.find? p := by
  induction l1 with
  | nil => rfl
  | cons x t ih =>
    by_cases hp : p x
    · simp [List.find?_cons, hp]
    · simp [List.find?_cons, hp, ih]

theorem find_of_map {α : Type} (p : α → Bool) (g : α → α) (l : List α)
    (h : ∀ x, p (g x) = p x) : (l.map g).find? p = (l.find? p).map g := by
  induction l with
  | nil => rfl
  | cons x t ih =>
    by_cases hp : p x
    · simp [List.find?_cons, h, hp]
    · simp [List.find?_cons, h, hp, ih]

theorem any_of_map {α β : Type} (p : β → Bool) (f : α → β) (l : List α) :
    (l.map f).any p = l.any (fun x => p (f x)) := by
  induction l with
  | nil => rfl
  | cons x t ih => simp [ih]

theorem map_of_map_pt {α β : Type} (f : α → β) (g : α → α) (l : List α)
    (h : ∀ x, f (g x) = f x) : (l.map g).map f = l.map f := by
  induction l with
  | nil => rfl
  | cons x t ih => simp [ih, h]

/-! ## The index-based reading of the string-walking primitives -/

theorem contains_eq_occurs (s p : List Char) : containsSub s p = occursIn s p := by
  induction s with
  | nil =>
    by_cases h : listStartsWith [] p
    · simp [containsSub, occursIn, firstMatchIdx, h]
    · simp [containsSub, occursIn, firstMatchIdx, h]
  | cons c t ih =>
    by_cases h : listStartsWith (c :: t) p
    · simp [containsSub, occursIn, firstMatchIdx, h]
    · simp only [containsSub, occursIn, firstMatchIdx, h, ih, Bool.false_or, if_neg,
        Bool.false_eq_true, not_false_eq_true]
      cases firstMatchIdx t p <;> simp [occursIn]

theorem splitFirst_eq_idx (s p : List Char) :
    splitFirst s p = (firstMatchIdx s p).map (fun i => (s.take i, s.drop (i + p.length))) := by
  induction s with
  | nil =>
    by_cases h : listStartsWith [] p
    · simp [splitFirst, firstMatchIdx, h]
    · simp [splitFirst, firstMatchIdx, h]
  | cons c t ih =>
    by_cases h : listStartsWith (c :: t) p
    · simp [splitFirst, firstMatchIdx, h]
    · simp [splitFirst, firstMatchIdx, h, ih]
      cases firstMatchIdx t p with
      | none => simp
      | some i => simp [Nat.add_right_comm]

theorem beforeFirst_eq_trunc (s p : List Char) : beforeFirst s p = truncAtFirst s p := by
  unfold beforeFirst truncAtFirst
  rw [splitFirst_eq_idx]
  cases firstMatchIdx s p <;> simp

theorem splitIdx1_eq_spec (s sep : String) :
    splitIdx1 s sep = ⟨beforeFirst (dropThroughFirst s.data sep.data) sep.data⟩ := by
  unfold splitIdx1 dropThroughFirst
  rw [splitFirst_eq_idx]
  cases h : firstMatchIdx s.data sep.data with
  | none => simp [beforeFirst_eq_trunc, truncAtFirst, h]
  | some i => simp

theorem strip_label_eq_spec (t : String) : genre_strip_label t = strip_label_spec t := by
  unfold genre_strip_label strip_label_spec pyContains pyStripS
  rw [contains_eq_occurs]
  by_cases h : occursIn t.data "gatunek:".data = true
  · rw [if_pos h, if_pos h]
    simp [splitIdx1_eq_spec, beforeFirst_eq_trunc]
  · rw [if_neg h, if_neg h]

theorem strip_age_eq_spec (t : String) : genre_strip_age t = strip_age_spec t := by
  unfold genre_strip_age strip_age_spec pyContains pyStripS beforeFirstS
  rw [contains_eq_occurs]
  by_cases h : occursIn t.data "kategoria wiekowa:".data = true
  · rw [if_pos h, if_pos h]
    simp [beforeFirst_eq_trunc]
  · rw [if_neg h, if_neg h]

theorem strip_dur_eq_spec (t : String) : genre_strip_dur t = strip_dur_spec t := by
  unfold genre_strip_dur strip_dur_spec pyContains pyStripS beforeFirstS
  rw [contains_eq_occurs]
  by_cases h : occursIn t.data "czas trwania:".data = true
  · rw [if_pos h, if_pos h]
    simp [beforeFirst_eq_trunc]
  · rw [if_neg h, if_neg h]

/-- C2: evaluating the production extraction of the code at the production
block text "Produkcja: USA, UK 2021": the year resolves to "2021", but the
countries value keeps the label — `replace("produkcja:", "")` is
case-sensitive while the guard lowercases, so "Produkcja:" survives — and the
result is "Produkcja: USA, UK" instead of the "USA, UK" the claim states. -/
theorem c2_eval :
    fetch_production ["Produkcja: USA, UK 2021"] = ("Produkcja: USA, UK", "2021")
      ∧ "Produkcja: USA, UK" ≠ "USA, UK" := by
  constructor
  · decide
  · decide

/-- C7 counterexample: two headings contradicting the claim as stated.  For
"Gatunek: Dramat" (title-case label, matched case-insensitively by the
heading search) the leading label is not removed, because `_clean_genre_text`
looks for the exact lowercase "gatunek:".  For a heading in which "gatunek:"
occurs twice, `split("gatunek:")[1]` keeps only the segment between the first
and second occurrences, not everything after the leading label. -/
theorem c7_counterexample :
    (fetch_genre [("Gatunek: Dramat", [])] = "Gatunek: Dramat"
      ∧ "Gatunek: Dramat" ≠ "Dramat")
    ∧ (fetch_genre [("gatunek: komedia gatunek: dramat", [])] = "komedia"
      ∧ "komedia" ≠ "komedia gatunek: dramat") := by
  exact ⟨⟨by decide, by decide⟩, ⟨by decide, by decide⟩⟩

/-- C7 (amended): for every detail page, the genre extraction equals the
index-based specification: the first `h4` whose lowered text contains
"gatunek" is stripped; if the exact lowercase "gatunek:" occurs, the segment
strictly between its first and second occurrences is kept; everything from
the first exact "kategoria wiekowa:" and then "czas trwania:" onward is cut,
stripping whitespace after every step; with no matching heading the result is
"Genre not found".  Case variants of the label or markers are not removed. -/
theorem c7_amended_thm (h4s : List H4) : fetch_genre h4s = genre_extraction_spec h4s := by
  unfold fetch_genre fetch_genre_with_parent genre_extraction_spec
  cases h4s.find? (fun h => pyContains (pyLower h.1) "gatunek") with
  | none => rfl
  | some h =>
    simp only [clean_genre_text, strip_label_eq_spec, strip_age_eq_spec, strip_dur_eq_spec]

/-- C6: the Dedup Filter of `_parse_movies` (main.py lines 83-86) compares by
title only: whenever any stored `(title, year)` pair has this title — whatever
the stored year, and with the new observation's year not even available at
this stage — the entry is dropped and the in-flight map is left unchanged, so
the title is never detail-fetched. -/
theorem c6_thm (existing : List (String × String)) (date title href : String)
    (times : List String) (ms : List InFlight)
    (h : ∃ p ∈ existing, p.1 = title) :
    parse_entry_step existing date ms ⟨some (title, href), times⟩ = ms := by
  unfold parse_entry_step
  have hany : existing.any (fun p => decide (p.1 = title)) = true := by
    rcases h with ⟨p, hp, he⟩
    exact List.any_eq_true.mpr ⟨p, hp, by simp [he]⟩
  simp [hany]

/-! ## Structural lemmas about Python `replace` -/

theorem replaceAllF_irrel : ∀ (f1 f2 : Nat) (s pat rep : List Char),
    s.length ≤ f1 → s.length ≤ f2 → replaceAllF f1 s pat rep = replaceAllF f2 s pat rep := by
  intro f1
  induction f1 using Nat.strong_induction_on with
  | _ f1 ih =>
    intro f2 s pat rep h1 h2
    cases pat with
    | nil => cases f1 <;> cases f2 <;> rfl
    | cons p ps =>
      cases s with
      | nil => cases f1 <;> cases f2 <;> rfl
      | cons c t =>
        cases f1 with
        | zero => simp at h1
        | succ f1' =>
          cases f2 with
          | zero => simp at h2
          | succ f2' =>
            simp only [replaceAllF]
            by_cases hm : listStartsWith (c :: t) (p :: ps)
            · rw [if_pos hm, if_pos hm]
              congr 1
              apply ih f1' (Nat.lt_succ_self _)
              · simp only [List.length_drop, List.length_cons] at *
                omega
              · simp only [List.length_drop, List.length_cons] at *
                omega
            · rw [if_neg hm, if_neg hm]
              congr 1
              apply ih f1' (Nat.lt_succ_self _)
              · simp only [List.length_cons] at h1
                omega
              · simp only [List.length_cons] at h2
                omega

theorem replaceAll_cons_eq (c : Char) (t pat rep : List Char) (hpat : pat ≠ []) :
    replaceAll (c :: t) pat rep =
      if listStartsWith (c :: t) pat then rep ++ replaceAll ((c :: t).drop pat.length) pat rep
      else c :: replaceAll t pat rep := by
  cases pat with
  | nil => exact absurd rfl hpat
  | cons p ps =>
    show replaceAllF (t.length + 1) (c :: t) (p :: ps) rep = _
    simp only [replaceAllF]
    by_cases hm : listStartsWith (c :: t) (p :: ps)
    · rw [if_pos hm, if_pos hm]
      congr 1
      apply replaceAllF_irrel
      · simp only [List.length_drop, List.length_cons]
        omega
      · exact Nat.le_refl _
    · rw [if_neg hm, if_neg hm]
      rfl

theorem startsWith_append_self : ∀ (y r : List Char), listStartsWith (y ++ r) y = true
  | [], r => by cases r <;> rfl
  | c :: ys, r => by simp [listStartsWith, startsWith_append_self ys r]

/-- A leading occurrence of the (nonempty) pattern is consumed whole. -/
theorem replaceAll_head_match (y r : List Char) (hy : y ≠ []) :
    replaceAll (y ++ r) y [] = replaceAll r y [] := by
  cases y with
  | nil => exact absurd rfl hy
  | cons c ys =>
    rw [List.cons_append, replaceAll_cons_eq c (ys ++ r) (c :: ys) [] (by simp)]
    rw [if_pos (by rw [← List.cons_append]; exact startsWith_append_self (c :: ys) r)]
    rw [← List.cons_append, List.drop_left]
    rfl

/-- No occurrence of a digit-headed pattern starts inside a digit-free
prefix, so `replace` copies the prefix verbatim. -/
theorem replaceAll_copy_front (a s : List Char) (y0 : Char) (ys : List Char)
    (ha : ∀ c ∈ a, c.isDigit = false) (hy0 : y0.isDigit = true) :
    replaceAll (a ++ s) (y0 :: ys) [] = a ++ replaceAll s (y0 :: ys) [] := by
  induction a with
  | nil => rfl
  | cons c a' ih =>
    have hc : c.isDigit = false := ha c (List.mem_cons_self c a')
    have hne : c ≠ y0 := by
      intro he
      rw [he, hy0] at hc
      exact Bool.noConfusion hc
    rw [List.cons_append, replaceAll_cons_eq c (a' ++ s) (y0 :: ys) [] (by simp)]
    rw [if_neg (by simp [listStartsWith, hne])]
    rw [ih (fun x hx => ha x (List.mem_cons_of_mem c hx))]
    rfl

theorem replaceAll_nil (pat rep : List Char) : replaceAll [] pat rep = [] := by
  cases pat <;> rfl

/-- C10: for every production text of the shape `a ++ y ++ b ++ y` — a 4-digit
year `y` closing the text and also occurring earlier, with the surrounding
fragments digit-free (and no lowercase "produkcja:" so the label branch is
inert) — `_clean_production_text` extracts `y` as the year and removes BOTH
occurrences of the 4-digit substring when forming countries, which is the
stripped `a ++ b`: `replace(year, "")` deletes every occurrence, not only the
trailing one. -/
theorem c10_thm (a b y : String)
    (ha : ∀ c ∈ a.data, c.isDigit = false)
    (hb : ∀ c ∈ b.data, c.isDigit = false)
    (hy4 : y.data.length = 4)
    (hyd : ∀ c ∈ y.data, c.isDigit = true)
    (hp : pyContains (pyLower (a ++ y ++ b ++ y)) "produkcja:" = false) :
    clean_production_text (a ++ y ++ b ++ y) = (⟨pyStrip (a.data ++ b.data)⟩, y) := by
  obtain ⟨y0, ys, hyc⟩ : ∃ y0 ys, y.data = y0 :: ys := by
    cases hyl : y.data with
    | nil => rw [hyl] at hy4; simp at hy4
    | cons c t => exact ⟨c, t, rfl⟩
  have hy0 : y0.isDigit = true := hyd y0 (by rw [hyc]; exact List.mem_cons_self _ _)
  have hyne : y.data ≠ [] := by rw [hyc]; simp
  have hdata : (a ++ y ++ b ++ y).data = a.data ++ (y.data ++ (b.data ++ y.data)) := by
    simp [String.data_append, List.append_assoc]
  have hdata2 : (a ++ y ++ b ++ y).data = (a.data ++ y.data ++ b.data) ++ y.data := by
    simp [String.data_append, List.append_assoc]
  have hlast : ¬ ((a ++ y ++ b ++ y).data.getLast? = some '\n') := by
    rw [hdata2, List.getLast?_append_of_ne_nil _ hyne,
        List.getLast?_eq_getLast y.data hyne]
    intro hcon
    have hmem : y.data.getLast hyne ∈ y.data := List.getLast_mem hyne
    have hdig : (y.data.getLast hyne).isDigit = true := hyd _ hmem
    rw [Option.some_inj.mp hcon] at hdig
    exact Bool.noConfusion hdig
  have hl4 : ((a ++ y ++ b ++ y).data.reverse.take 4).reverse = y.data := by
    have hy4r : y.data.reverse.length = 4 := by rw [List.length_reverse]; exact hy4
    rw [hdata2, List.reverse_append, ← hy4r, List.take_left, List.reverse_reverse]
  have hym : yearMatch (a ++ y ++ b ++ y) = some y := by
    unfold yearMatch
    rw [if_neg hlast]
    have hall : y.data.all Char.isDigit = true := List.all_eq_true.mpr hyd
    simp only [hl4, hy4, hall, decide_True, Bool.and_self, if_true]
  have hexact : replaceAll (y0 :: ys) (y0 :: ys) [] = [] := by
    have hh := replaceAll_head_match (y0 :: ys) [] (by simp)
    rw [List.append_nil] at hh
    rw [hh, replaceAll_nil]
  have hrep : replaceAll (a ++ y ++ b ++ y).data y.data [] = a.data ++ b.data := by
    rw [hdata, hyc]
    rw [replaceAll_copy_front a.data _ y0 ys ha hy0]
    rw [replaceAll_head_match (y0 :: ys) _ (by simp)]
    rw [replaceAll_copy_front b.data _ y0 ys hb hy0]
    rw [hexact]
    simp
  show clean_production_text (a ++ y ++ b ++ y) = _
  unfold clean_production_text
  rw [hp]
  simp only [Bool.false_eq_true, if_false, hym]
  unfold pyStripS pyReplace
  rw [hrep]

/-- C10 witness: "2021 Odyseja kosmiczna 2021" — the year also occurs at the
front; both copies are deleted and countries is "Odyseja kosmiczna". -/
theorem c10_witness :
    ((∀ c ∈ "".data, c.isDigit = false)
      ∧ (∀ c ∈ " Odyseja kosmiczna ".data, c.isDigit = false)
      ∧ "2021".data.length = 4
      ∧ (∀ c ∈ "2021".data, c.isDigit = true)
      ∧ pyContains (pyLower ("" ++ "2021" ++ " Odyseja kosmiczna " ++ "2021")) "produkcja:" = false)
    ∧ clean_production_text ("" ++ "2021" ++ " Odyseja kosmiczna " ++ "2021")
        = (⟨pyStrip ("".data ++ " Odyseja kosmiczna ".data)⟩, "2021") :=
  ⟨⟨by decide, by decide, by decide, by decide, by decide⟩,
   c10_thm "" " Odyseja kosmiczna " "2021" (by decide) (by decide) (by decide) (by decide)
     (by decide)⟩

/-! ## Aggregator lemmas -/

theorem titles_map_pres (g : InFlight → InFlight) (h : ∀ m, (g m).title = m.title)
    (ms : List InFlight) : inFlightTitles (ms.map g) = inFlightTitles ms := by
  unfold inFlightTitles
  exact map_of_map_pt (fun m => m.title) g ms h

theorem addTuple_titles (ms : List InFlight) (tu : RawTuple) :
    inFlightTitles (addTuple ms tu) = dedupStep (inFlightTitles ms) tu.title := by
  unfold addTuple dedupStep
  have hany : (inFlightTitles ms).any (fun s => decide (s = tu.title))
      = ms.any (fun m => decide (m.title = tu.title)) := by
    unfold inFlightTitles
    rw [any_of_map]
  rw [hany]
  by_cases h : ms.any (fun m => decide (m.title = tu.title)) = true
  · rw [if_pos h, if_pos h]
    exact titles_map_pres _ (fun m => by by_cases hm : m.title = tu.title <;> simp [hm]) ms
  · rw [if_neg h, if_neg h]
    unfold inFlightTitles
    simp

theorem foldl_addTuple_titles : ∀ (ts : List RawTuple) (ms : List InFlight),
    inFlightTitles (List.foldl addTuple ms ts)
      = List.foldl dedupStep (inFlightTitles ms) (ts.map (fun tu => tu.title))
  | [], _ => rfl
  | tu :: ts, ms => by
    simp only [List.foldl_cons, List.map_cons]
    rw [← addTuple_titles]
    exact foldl_addTuple_titles ts (addTuple ms tu)

theorem dedupStep_mono (acc : List String) (t x : String) (h : x ∈ acc) :
    x ∈ dedupStep acc t := by
  unfold dedupStep
  by_cases ha : acc.any (fun s => decide (s = t)) = true
  · rw [if_pos ha]; exact h
  · rw [if_neg ha]; exact List.mem_append_left _ h

theorem foldl_dedup_mono (l acc : List String) (x : String) (h : x ∈ acc) :
    x ∈ List.foldl dedupStep acc l :=
  foldl_pres dedupStep (fun a => x ∈ a) (fun a t hx => dedupStep_mono a t x hx) l acc h

theorem mem_foldl_dedup : ∀ (l acc : List String) (x : String), x ∈ l →
    x ∈ List.foldl dedupStep acc l
  | [], _, _, h => absurd h (List.not_mem_nil _)
  | t :: l, acc, x, h => by
    simp only [List.foldl_cons]
    rcases List.mem_cons.mp h with he | hl
    · subst he
      apply foldl_dedup_mono
      unfold dedupStep
      by_cases ha : acc.any (fun s => decide (s = x)) = true
      · rw [if_pos ha]
        rcases List.any_eq_true.mp ha with ⟨s, hs, hse⟩
        exact (of_decide_eq_true hse) ▸ hs
      · rw [if_neg ha]
        exact List.mem_append_right _ (List.mem_singleton.mpr rfl)
    · exact mem_foldl_dedup l (dedupStep acc t) x hl

theorem dedupStep_nodup (acc : List String) (t : String) (h : acc.Nodup) :
    (dedupStep acc t).Nodup := by
  unfold dedupStep
  by_cases ha : acc.any (fun s => decide (s = t)) = true
  · rw [if_pos ha]; exact h
  · rw [if_neg ha]
    have hni : t ∉ acc := by
      intro hm
      exact ha (List.any_eq_true.mpr ⟨t, hm, by simp⟩)
    simp [List.nodup_append, h, hni]

theorem addTuple_nodup (ms : List InFlight) (tu : RawTuple)
    (h : (inFlightTitles ms).Nodup) : (inFlightTitles (addTuple ms tu)).Nodup := by
  rw [addTuple_titles]
  exact dedupStep_nodup _ _ h

theorem addTuple_mem_title (ms : List InFlight) (tu : RawTuple) (m : InFlight)
    (h : m ∈ addTuple ms tu) : (∃ m' ∈ ms, m.title = m'.title) ∨ m.title = tu.title := by
  unfold addTuple at h
  by_cases ha : ms.any (fun x => decide (x.title = tu.title)) = true
  · rw [if_pos ha] at h
    rcases List.mem_map.mp h with ⟨m', hm', he⟩
    left
    refine ⟨m', hm', ?_⟩
    subst he
    by_cases h2 : m'.title = tu.title <;> simp [h2]
  · rw [if_neg ha] at h
    rcases List.mem_append.mp h with hm | hm
    · left; exact ⟨m, hm, rfl⟩
    · right
      rw [List.mem_singleton.mp hm]

theorem find_addTuple_some (ms : List InFlight) (tu : RawTuple) (t : String) (m : InFlight)
    (h : ms.find? (fun x => decide (x.title = t)) = some m) :
    ∃ m2, (addTuple ms tu).find? (fun x => decide (x.title = t)) = some m2
      ∧ m2.link = m.link ∧ m2.title = m.title := by
  unfold addTuple
  by_cases ha : ms.any (fun x => decide (x.title = tu.title)) = true
  · rw [if_pos ha]
    rw [find_of_map _ _ _ (fun x => by by_cases h2 : x.title = tu.title <;> simp [h2])]
    rw [h]
    by_cases h2 : m.title = tu.title <;> simp [h2]
  · rw [if_neg ha, find_of_append, h]
    exact ⟨m, rfl, rfl, rfl⟩

theorem find_addTuple_none_hit (ms : List InFlight) (tu : RawTuple) (t : String)
    (h : ms.find? (fun x => decide (x.title = t)) = none) (he : tu.title = t) :
    ∃ m2, (addTuple ms tu).find? (fun x => decide (x.title = t)) = some m2
      ∧ m2.link = tu.link := by
  unfold addTuple
  have ha : ms.any (fun x => decide (x.title = tu.title)) = false := by
    by_contra hc
    rcases List.any_eq_true.mp (Bool.of_not_eq_false hc) with ⟨m', hm', hme⟩
    have h2 := List.find?_eq_none.mp h m' hm'
    exact h2 (by simp [of_decide_eq_true hme, he])
  rw [ha]
  simp only [Bool.false_eq_true, if_false]
  rw [find_of_append, h]
  refine ⟨⟨tu.title, tu.link, [(tu.date, tu.times)], none, none, none, none⟩, ?_, rfl⟩
  simp [List.find?_cons, he]

theorem find_addTuple_none_ne (ms : List InFlight) (tu : RawTuple) (t : String)
    (h : ms.find? (fun x => decide (x.title = t)) = none) (he : ¬ tu.title = t) :
    (addTuple ms tu).find? (fun x => decide (x.title = t)) = none := by
  unfold addTuple
  by_cases ha : ms.any (fun x => decide (x.title = tu.title)) = true
  · rw [if_pos ha]
    rw [find_of_map _ _ _ (fun x => by by_cases h2 : x.title = tu.title <;> simp [h2])]
    rw [h]
    rfl
  · rw [if_neg ha, find_of_append, h]
    simp [List.find?_cons, he]

theorem fold_find_some : ∀ (ts : List RawTuple) (ms : List InFlight) (t : String) (m : InFlight),
    ms.find? (fun x => decide (x.title = t)) = some m →
    ∃ m2, (List.foldl addTuple ms ts).find? (fun x => decide (x.title = t)) = some m2
      ∧ m2.link = m.link
  | [], _, _, m, h => ⟨m, h, rfl⟩
  | tu :: ts, ms, t, m, h => by
    simp only [List.foldl_cons]
    rcases find_addTuple_some ms tu t m h with ⟨m1, h1, hl1, _⟩
    rcases fold_find_some ts (addTuple ms tu) t m1 h1 with ⟨m2, h2, hl2⟩
    exact ⟨m2, h2, by rw [hl2, hl1]⟩

theorem fold_find_none : ∀ (ts : List RawTuple) (ms : List InFlight) (t : String),
    ms.find? (fun x => decide (x.title = t)) = none →
    ((List.foldl addTuple ms ts).find? (fun x => decide (x.title = t))).map (fun m => m.link)
      = (ts.find? (fun tu => decide (tu.title = t))).map (fun tu => tu.link)
  | [], ms, t, h => by simp [h]
  | tu :: ts, ms, t, h => by
    simp only [List.foldl_cons]
    by_cases he : tu.title = t
    · rcases find_addTuple_none_hit ms tu t h he with ⟨m1, h1, hl1⟩
      rcases fold_find_some ts (addTuple ms tu) t m1 h1 with ⟨m2, h2, hl2⟩
      rw [h2]
      simp [List.find?_cons, he, hl2, hl1]
    · rw [fold_find_none ts (addTuple ms tu) t (find_addTuple_none_ne ms tu t h he)]
      simp [List.find?_cons, he]

/-- C8: the Aggregator.  (i) The records of `aggregate` carry exactly the
distinct titles of the tuple stream, in first-occurrence order; (ii) a title's
record keeps the link of that title's first tuple — later occurrences never
overwrite it; (iii) the spec's example: two dates observing "Movie A" yield
one record with each date's times under its own date key. -/
theorem c8_thm :
    (∀ ts : List RawTuple,
      inFlightTitles (aggregate ts) = dedupKeepFirst (ts.map (fun tu => tu.title)))
    ∧ (∀ (ts : List RawTuple) (t : String),
      ((aggregate ts).find? (fun m => decide (m.title = t))).map (fun m => m.link)
        = (ts.find? (fun tu => decide (tu.title = t))).map (fun tu => tu.link))
    ∧ (∀ l : String,
      aggregate [⟨"01-02-2025", "Movie A", l, ["18:00"]⟩, ⟨"02-02-2025", "Movie A", l, ["20:30"]⟩]
        = [⟨"Movie A", l, [("01-02-2025", ["18:00"]), ("02-02-2025", ["20:30"])],
            none, none, none, none⟩]) := by
  refine ⟨fun ts => ?_, fun ts t => ?_, fun l => ?_⟩
  · exact foldl_addTuple_titles ts []
  · exact fold_find_none ts [] t rfl
  · rfl

/-! ## Listing-phase lemmas -/

theorem parse_fold_eq (ex : List (String × String)) (d : String) :
    ∀ (entries : List Entry) (ms : List InFlight),
    List.foldl (parse_entry_step ex d) ms entries
      = List.foldl addTuple ms ((entryTuples d entries).filter
          (fun tu => !(ex.any (fun p => decide (p.1 = tu.title)))))
  | [], _ => rfl
  | e :: entries, ms => by
    simp only [List.foldl_cons]
    cases hT : e.titleTag with
    | none =>
      have hstep : parse_entry_step ex d ms e = ms := by
        simp [parse_entry_step, hT]
      rw [hstep, parse_fold_eq ex d entries ms]
      simp [entryTuples, List.filterMap_cons, hT]
    | some tl =>
      by_cases hex : ex.any (fun p => decide (p.1 = tl.1)) = true
      · have hstep : parse_entry_step ex d ms e = ms := by
          simp [parse_entry_step, hT, hex]
        rw [hstep, parse_fold_eq ex d entries ms]
        simp [entryTuples, List.filterMap_cons, hT, List.filter_cons, hex]
      · have hstep : parse_entry_step ex d ms e
            = addTuple ms ⟨d, tl.1, base_url ++ tl.2, e.times⟩ := by
          simp [parse_entry_step, hT, hex]
        rw [hstep, parse_fold_eq ex d entries _]
        simp [entryTuples, List.filterMap_cons, hT, List.filter_cons, hex]

theorem parse_movies_ok (u : Upstream) (db : DB) (ms : List InFlight) (d : String)
    (h : (u.listing d).isTransport = false) :
    parse_movies u db ms d = .ok (List.foldl addTuple ms
      ((dateTuples u d).filter (fun tu => !(existingAnyTitle db tu.title)))) := by
  cases hl : u.listing d with
  | transportError m =>
    rw [hl] at h
    exact absurd h (by simp [ListingResult.isTransport])
  | response status lista =>
    by_cases hs : status = 200
    · by_cases hr : lista.getD "" = ""
      · simp [parse_movies, fetch_movies_page, dateTuples, hl, hs, hr]
      · have hpm : parse_movies u db ms d
            = .ok (List.foldl (parse_entry_step (fetch_movie_titles_and_years db) d) ms
                (u.parseEntries (lista.getD ""))) := by
          simp [parse_movies, fetch_movies_page, hl, hs, hr]
        have hdt : dateTuples u d = entryTuples d (u.parseEntries (lista.getD "")) := by
          simp [dateTuples, hl, hs, hr]
        rw [hpm, hdt,
          parse_fold_eq (fetch_movie_titles_and_years db) d (u.parseEntries (lista.getD "")) ms]
        rfl
    · simp [parse_movies, fetch_movies_page, dateTuples, hl, hs]

theorem aux_reads_irrel (u : Upstream) (db : DB) :
    ∀ (dates : List String) (ms : List InFlight) (r1 r2 : Nat),
    ((listing_phase_aux u db dates ms r1).1 = (listing_phase_aux u db dates ms r2).1)
    ∧ ((listing_phase_aux u db dates ms r1).2.1 = (listing_phase_aux u db dates ms r2).2.1)
  | [], _, _, _ => ⟨rfl, rfl⟩
  | d :: dates, ms, r1, r2 => by
    simp only [listing_phase_aux]
    cases hp : parse_movies u db ms d with
    | error e => exact ⟨rfl, rfl⟩
    | ok ms2 => exact aux_reads_irrel u db dates ms2 (r1 + 1) (r2 + 1)

theorem listing_ok (u : Upstream) (db : DB) :
    ∀ (dates : List String) (ms : List InFlight) (r : Nat),
    (∀ d ∈ dates, (u.listing d).isTransport = false) →
    listing_phase_aux u db dates ms r
      = (none, List.foldl addTuple ms ((allTuples u dates).filter
          (fun tu => !(existingAnyTitle db tu.title))), r + dates.length)
  | [], ms, r, _ => by simp [listing_phase_aux, allTuples]
  | d :: dates, ms, r, h => by
    have hd := h d (List.mem_cons_self d dates)
    have hpm := parse_movies_ok u db ms d hd
    simp only [listing_phase_aux, hpm]
    rw [listing_ok u db dates _ (r + 1) (fun x hx => h x (List.mem_cons_of_mem d hx))]
    show _ = (none, List.foldl addTuple ms ((allTuples u (d :: dates)).filter _), _)
    rw [allTuples, List.filter_append, List.foldl_append]
    have harith : r + 1 + dates.length = r + (d :: dates).length := by
      simp only [List.length_cons]
      omega
    rw [harith]

/-! ## Listing-phase invariants -/

theorem step_Q (ex : List (String × String)) (d : String) (e : Entry) (ms : List InFlight)
    (h : ∀ m ∈ ms, ex.any (fun p => decide (p.1 = m.title)) = false) :
    ∀ m ∈ parse_entry_step ex d ms e, ex.any (fun p => decide (p.1 = m.title)) = false := by
  cases hT : e.titleTag with
  | none => simpa [parse_entry_step, hT] using h
  | some tl =>
    by_cases hex : ex.any (fun p => decide (p.1 = tl.1)) = true
    · simpa [parse_entry_step, hT, hex] using h
    · intro m hm
      simp only [parse_entry_step, hT, hex, if_false] at hm
      rcases addTuple_mem_title ms _ m hm with ⟨m', hm', he⟩ | he
      · rw [he]; exact h m' hm'
      · rw [he]
        exact Bool.not_eq_true _ ▸ hex

theorem parse_Q (u : Upstream) (db : DB) (d : String) (ms ms2 : List InFlight)
    (h2 : parse_movies u db ms d = .ok ms2)
    (h : ∀ m ∈ ms, existingAnyTitle db m.title = false) :
    ∀ m ∈ ms2, existingAnyTitle db m.title = false := by
  unfold existingAnyTitle at *
  unfold parse_movies at h2
  cases hf : fetch_movies_page u d with
  | error e =>
    rw [hf] at h2
    exact absurd h2 (by simp)
  | ok o =>
    rw [hf] at h2
    cases o with
    | none =>
      simp only [Except.ok.injEq] at h2
      rw [← h2]; exact h
    | some raw =>
      by_cases hr : raw = ""
      · simp [hr] at h2
        subst h2
        exact h
      · simp [hr] at h2
        subst h2
        exact foldl_pres (parse_entry_step (fetch_movie_titles_and_years db) d)
          (fun a => ∀ m ∈ a, (fetch_movie_titles_and_years db).any
            (fun p => decide (p.1 = m.title)) = false)
          (fun a e hP => step_Q _ d e a hP) (u.parseEntries raw) ms h

theorem aux_Q (u : Upstream) (db : DB) :
    ∀ (dates : List String) (ms : List InFlight) (r : Nat),
    (∀ m ∈ ms, existingAnyTitle db m.title = false) →
    ∀ m ∈ (listing_phase_aux u db dates ms r).2.1, existingAnyTitle db m.title = false
  | [], _, _, h => h
  | d :: dates, ms, r, h => by
    simp only [listing_phase_aux]
    cases hp : parse_movies u db ms d with
    | error e => exact h
    | ok ms2 => exact aux_Q u db dates ms2 (r + 1) (parse_Q u db d ms ms2 hp h)

theorem step_nodup (ex : List (String × String)) (d : String) (e : Entry) (ms : List InFlight)
    (h : (inFlightTitles ms).Nodup) : (inFlightTitles (parse_entry_step ex d ms e)).Nodup := by
  cases hT : e.titleTag with
  | none => simpa [parse_entry_step, hT] using h
  | some tl =>
    by_cases hex : ex.any (fun p => decide (p.1 = tl.1)) = true
    · simpa [parse_entry_step, hT, hex] using h
    · simp only [parse_entry_step, hT, hex, if_false]
      exact addTuple_nodup ms _ h

theorem parse_nodup (u : Upstream) (db : DB) (d : String) (ms ms2 : List InFlight)
    (h2 : parse_movies u db ms d = .ok ms2) (h : (inFlightTitles ms).Nodup) :
    (inFlightTitles ms2).Nodup := by
  unfold parse_movies at h2
  cases hf : fetch_movies_page u d with
  | error e =>
    rw [hf] at h2
    exact absurd h2 (by simp)
  | ok o =>
    rw [hf] at h2
    cases o with
    | none =>
      simp only [Except.ok.injEq] at h2
      rw [← h2]; exact h
    | some raw =>
      by_cases hr : raw = ""
      · simp [hr] at h2
        subst h2
        exact h
      · simp [hr] at h2
        subst h2
        exact foldl_pres (parse_entry_step (fetch_movie_titles_and_years db) d)
          (fun a => (inFlightTitles a).Nodup)
          (fun a e hP => step_nodup _ d e a hP) (u.parseEntries raw) ms h

theorem aux_nodup (u : Upstream) (db : DB) :
    ∀ (dates : List String) (ms : List InFlight) (r : Nat),
    (inFlightTitles ms).Nodup → (inFlightTitles (listing_phase_aux u db dates ms r).2.1).Nodup
  | [], _, _, h => h
  | d :: dates, ms, r, h => by
    simp only [listing_phase_aux]
    cases hp : parse_movies u db ms d with
    | error e => exact h
    | ok ms2 => exact aux_nodup u db dates ms2 (r + 1) (parse_nodup u db d ms ms2 hp h)

/-- C4 counterexample: with date "bad" raising a transport error and date
"d2" serving a healthy listing of "Movie X", the listing loop dies on the
uncaught exception after the first date: the run aborts, "d2" is never
processed, and no tuples at all are collected — although "d2" alone would
have contributed one. -/
theorem c4_counterexample :
    listing_phase_aux uDown dbEmpty ["bad", "d2"] [] 0 = (some "ConnectionError", [], 1)
    ∧ dateTuples uDown "d2" ≠ [] := by
  exact ⟨by decide, by decide⟩

/-- C4 (amended): a date whose listing fetch returns a non-success HTTP
status is skipped: it contributes zero tuples and the remaining dates are
processed exactly as if the date were absent (same exception outcome, same
collected records).  A transport-level error, by contrast, is not caught and
aborts the run (see the counterexample). -/
theorem c4_amended_thm (u : Upstream) (db : DB) (pre post : List String) (d : String)
    (ms0 : List InFlight) (r0 : Nat)
    (h : ∃ s l, u.listing d = .response s l ∧ s ≠ 200) :
    ((listing_phase_aux u db (pre ++ d :: post) ms0 r0).1
        = (listing_phase_aux u db (pre ++ post) ms0 r0).1)
    ∧ ((listing_phase_aux u db (pre ++ d :: post) ms0 r0).2.1
        = (listing_phase_aux u db (pre ++ post) ms0 r0).2.1) := by
  induction pre generalizing ms0 r0 with
  | nil =>
    rcases h with ⟨s, l, hl, hs⟩
    have hp : parse_movies u db ms0 d = .ok ms0 := by
      simp [parse_movies, fetch_movies_page, hl, hs]
    simp only [List.nil_append, listing_phase_aux, hp]
    exact aux_reads_irrel u db post ms0 (r0 + 1) r0
  | cons p pre ih =>
    simp only [List.cons_append, listing_phase_aux]
    cases hp : parse_movies u db ms0 p with
    | error e => exact ⟨rfl, rfl⟩
    | ok ms2 => exact ih ms2 (r0 + 1)

/-- C4 witness: a 404 date "bad" before a healthy date "d1" leaves the run's
outcome and collected records the same as if "bad" were absent. -/
theorem c4_witness :
    (∃ s l, uFail.listing "bad" = .response s l ∧ s ≠ 200)
    ∧ (((listing_phase_aux uFail dbEmpty (["bad"] ++ ["d1"]) [] 0).1
          = (listing_phase_aux uFail dbEmpty ([] ++ ["d1"]) [] 0).1)
        ∧ ((listing_phase_aux uFail dbEmpty (["bad"] ++ ["d1"]) [] 0).2.1
          = (listing_phase_aux uFail dbEmpty ([] ++ ["d1"]) [] 0).2.1)) :=
  ⟨⟨404, none, rfl, by decide⟩,
   c4_amended_thm uFail dbEmpty [] ["d1"] "bad" [] 0 ⟨404, none, rfl, by decide⟩⟩

/-- C5 counterexample: a healthy two-date window performs two
`fetch_movie_titles_and_years` reads, not one — `_parse_movies` re-reads the
store at the start of every date. -/
theorem c5_counterexample :
    (listing_phase_aux uQuiet dbEmpty ["01-01-2025", "02-01-2025"] [] 0).2.2 = 2
    ∧ (2 : Nat) ≠ 1 :=
  ⟨by decide, by decide⟩

/-- C5 (amended): the known `(title, year)` set is read once per date, not
once per run: over a window with no transport errors the run performs exactly
one `fetch_movie_titles_and_years` call per date in the window. -/
theorem c5_amended_thm (u : Upstream) (db : DB) (dates : List String) (ms0 : List InFlight)
    (r0 : Nat) (h : ∀ d ∈ dates, (u.listing d).isTransport = false) :
    (listing_phase_aux u db dates ms0 r0).2.2 = r0 + dates.length := by
  rw [listing_ok u db dates ms0 r0 h]

/-- C5 witness: the two-date window of the counterexample satisfies the
amended count through the theorem. -/
theorem c5_witness :
    (∀ d ∈ ["01-01-2025", "02-01-2025"], (uQuiet.listing d).isTransport = false)
    ∧ (listing_phase_aux uQuiet dbEmpty ["01-01-2025", "02-01-2025"] [] 0).2.2 = 0 + 2 :=
  ⟨by decide, c5_amended_thm uQuiet dbEmpty ["01-01-2025", "02-01-2025"] [] 0 (by decide)⟩

/-! ## Store lemmas -/

theorem row_titles_map_pres (g : MovieRow → MovieRow) (h : ∀ q, (g q).title = q.title)
    (l : List MovieRow) : (l.map g).map (fun r => r.title) = l.map (fun r => r.title) :=
  map_of_map_pt (fun r => r.title) g l h

theorem add_screening_movies (db : DB) (mid : Nat) (date time : String) :
    (add_screening db mid date time).movies = db.movies := by
  unfold add_screening
  split <;> rfl

theorem save_screenings_movies (db : DB) (mid : Nat) (scr : List (String × List String)) :
    (save_screenings db mid scr).movies = db.movies := by
  unfold save_screenings
  by_cases hm : mid = 0
  · rw [if_pos hm]
  · rw [if_neg hm]
    exact foldl_pres (fun d p => p.2.foldl (fun d2 tm => add_screening d2 mid p.1 tm) d)
      (fun d => d.movies = db.movies)
      (fun d p hd =>
        foldl_pres (fun d2 tm => add_screening d2 mid p.1 tm) (fun d2 => d2.movies = db.movies)
          (fun d2 tm hd2 => by
            show (add_screening d2 mid p.1 tm).movies = db.movies
            rw [add_screening_movies]
            exact hd2) p.2 d hd)
      scr db rfl

theorem dbTitles_save_screenings (db : DB) (mid : Nat) (scr : List (String × List String)) :
    dbTitles (save_screenings db mid scr) = dbTitles db := by
  unfold dbTitles
  rw [save_screenings_movies]

theorem save_movie_titles (db : DB) (ti g de y c : String) :
    dbTitles (save_movie db ti g de y c).1
      = match db.movies.find? (fun r => decide (r.title = ti) && decide (r.year = y)) with
        | some _ => dbTitles db
        | none => dbTitles db ++ [ti] := by
  unfold save_movie
  cases hf : db.movies.find? (fun r => decide (r.title = ti) && decide (r.year = y)) with
  | some r =>
    unfold dbTitles
    exact row_titles_map_pres
      (fun q => if q.id = r.id then { q with genre := g, description := de, countries := c } else q)
      (fun q => by dsimp only; split <;> rfl) db.movies
  | none =>
    unfold dbTitles
    simp

theorem save_movie_self_mem (db : DB) (ti g de y c : String) :
    ti ∈ dbTitles (save_movie db ti g de y c).1 := by
  rw [save_movie_titles]
  cases hf : db.movies.find? (fun r => decide (r.title = ti) && decide (r.year = y)) with
  | some r =>
    have hprop := List.find?_some hf
    simp only [Bool.and_eq_true, decide_eq_true_eq] at hprop
    have hmem : r ∈ db.movies := List.mem_of_find?_eq_some hf
    exact hprop.1 ▸ List.mem_map_of_mem (fun r => r.title) hmem
  | none =>
    simp

theorem save_movie_mono (db : DB) (ti g de y c t : String) (h : t ∈ dbTitles db) :
    t ∈ dbTitles (save_movie db ti g de y c).1 := by
  rw [save_movie_titles]
  cases db.movies.find? (fun r => decide (r.title = ti) && decide (r.year = y)) with
  | some r => exact h
  | none => exact List.mem_append_left _ h

theorem save_movie_sub (db : DB) (ti g de y c t : String)
    (h : t ∈ dbTitles (save_movie db ti g de y c).1) : t ∈ dbTitles db ∨ t = ti := by
  rw [save_movie_titles] at h
  cases hf : db.movies.find? (fun r => decide (r.title = ti) && decide (r.year = y)) with
  | some r =>
    rw [hf] at h
    exact Or.inl h
  | none =>
    rw [hf] at h
    rcases List.mem_append.mp h with h2 | h2
    · exact Or.inl h2
    · exact Or.inr (List.mem_singleton.mp h2)

theorem EA_iff (db : DB) (t : String) : existingAnyTitle db t = true ↔ t ∈ dbTitles db := by
  unfold existingAnyTitle fetch_movie_titles_and_years dbTitles
  rw [any_of_map]
  constructor
  · intro h
    rcases List.any_eq_true.mp h with ⟨r, hr, he⟩
    exact List.mem_map.mpr ⟨r, hr, of_decide_eq_true he⟩
  · intro h
    rcases List.mem_map.mp h with ⟨r, hr, he⟩
    exact List.any_eq_true.mpr ⟨r, hr, by simp [he]⟩

theorem EA_false_iff (db : DB) (t : String) :
    existingAnyTitle db t = false ↔ ¬ t ∈ dbTitles db := by
  rw [← EA_iff db t]
  constructor
  · intro h hc
    rw [h] at hc
    exact Bool.noConfusion hc
  · intro h
    cases hb : existingAnyTitle db t
    · rfl
    · exact absurd hb h

/-! ## Detail-phase lemmas -/

theorem fmd_mono (u : Upstream) (db : DB) (ms : List InFlight) (m : InFlight) (t : String)
    (h : t ∈ dbTitles db) : t ∈ dbTitles (fetch_movie_details u db ms m).2.1 := by
  cases hd : u.detail m.link with
  | transportError e => simpa [fetch_movie_details, hd] using h
  | response s pg =>
    by_cases hs : s = 200
    · simp only [fetch_movie_details, hd, hs, if_true]
      rw [dbTitles_save_screenings]
      exact save_movie_mono _ _ _ _ _ _ t h
    · simpa [fetch_movie_details, hd, hs] using h

theorem fmd_success_self (u : Upstream) (db : DB) (ms : List InFlight) (m : InFlight)
    (pg : DetailPage) (hd : u.detail m.link = .response 200 pg) :
    m.title ∈ dbTitles (fetch_movie_details u db ms m).2.1 := by
  simp only [fetch_movie_details, hd, if_true]
  rw [dbTitles_save_screenings]
  exact save_movie_self_mem _ _ _ _ _ _

theorem fmd_sub (u : Upstream) (db : DB) (ms : List InFlight) (m : InFlight) (t : String)
    (h : t ∈ dbTitles (fetch_movie_details u db ms m).2.1) :
    t ∈ dbTitles db ∨ (t = m.title ∧ DetailSuccess (u.detail m.link)) := by
  cases hd : u.detail m.link with
  | transportError e =>
    exact Or.inl (by simpa [fetch_movie_details, hd] using h)
  | response s pg =>
    by_cases hs : s = 200
    · simp only [fetch_movie_details, hd, hs, if_true] at h
      rw [dbTitles_save_screenings] at h
      rcases save_movie_sub _ _ _ _ _ _ t h with h2 | h2
      · exact Or.inl h2
      · refine Or.inr ⟨h2, pg, ?_⟩
        rw [hs]
    · exact Or.inl (by simpa [fetch_movie_details, hd, hs] using h)

theorem fmd_exn (u : Upstream) (db : DB) (ms : List InFlight) (m : InFlight)
    (hD : (u.detail m.link).isTransport = false) :
    (fetch_movie_details u db ms m).1 = none := by
  cases hd : u.detail m.link with
  | transportError e =>
    rw [hd] at hD
    exact absurd hD (by simp [DetailResult.isTransport])
  | response s pg =>
    by_cases hs : s = 200
    · simp [fetch_movie_details, hd, hs]
    · simp [fetch_movie_details, hd, hs]

theorem fmd_titles (u : Upstream) (db : DB) (ms : List InFlight) (m : InFlight) :
    inFlightTitles (fetch_movie_details u db ms m).2.2 = inFlightTitles ms := by
  cases hd : u.detail m.link with
  | transportError e => simp [fetch_movie_details, hd]
  | response s pg =>
    by_cases hs : s = 200
    · simp only [fetch_movie_details, hd, hs, if_true]
      exact titles_map_pres _ (fun x => by by_cases hx : x.title = m.title <;> simp [hx, enrich]) ms
    · simp [fetch_movie_details, hd, hs]

theorem fmd_nosuccess (u : Upstream) (db : DB) (ms : List InFlight) (m : InFlight)
    (hns : ¬ DetailSuccess (u.detail m.link)) (hD : (u.detail m.link).isTransport = false) :
    fetch_movie_details u db ms m = (none, db, ms) := by
  cases hd : u.detail m.link with
  | transportError e =>
    rw [hd] at hD
    exact absurd hD (by simp [DetailResult.isTransport])
  | response s pg =>
    by_cases hs : s = 200
    · exact absurd ⟨pg, by rw [hd, hs]⟩ hns
    · simp [fetch_movie_details, hd, hs]

theorem details_exn (u : Upstream) (hD : ∀ l, (u.detail l).isTransport = false) :
    ∀ (todo : List InFlight) (db : DB) (ms : List InFlight),
    (details_phase u todo db ms).1 = none
  | [], _, _ => rfl
  | m :: rest, db, ms => by
    simp only [details_phase]
    rcases hfd : fetch_movie_details u db ms m with ⟨exn, db2, ms2⟩
    have hnone : exn = none := by
      have := fmd_exn u db ms m (hD m.link)
      rw [hfd] at this
      exact this
    subst hnone
    exact details_exn u hD rest db2 ms2

theorem details_mono (u : Upstream) (t : String) :
    ∀ (todo : List InFlight) (db : DB) (ms : List InFlight), t ∈ dbTitles db →
    t ∈ dbTitles (details_phase u todo db ms).2.1
  | [], _, _, h => h
  | m :: rest, db, ms, h => by
    simp only [details_phase]
    rcases hfd : fetch_movie_details u db ms m with ⟨exn, db2, ms2⟩
    have hdb2 : t ∈ dbTitles db2 := by
      have := fmd_mono u db ms m t h
      rw [hfd] at this
      exact this
    cases exn with
    | some e => exact hdb2
    | none => exact details_mono u t rest db2 ms2 hdb2

theorem details_success_mem (u : Upstream) (hD : ∀ l, (u.detail l).isTransport = false)
    (m : InFlight) (hsucc : DetailSuccess (u.detail m.link)) :
    ∀ (todo : List InFlight) (db : DB) (ms : List InFlight), m ∈ todo →
    m.title ∈ dbTitles (details_phase u todo db ms).2.1
  | [], _, _, hm => absurd hm (List.not_mem_nil m)
  | m' :: rest, db, ms, hm => by
    simp only [details_phase]
    rcases hfd : fetch_movie_details u db ms m' with ⟨exn, db2, ms2⟩
    have hnone : exn = none := by
      have := fmd_exn u db ms m' (hD m'.link)
      rw [hfd] at this
      exact this
    subst hnone
    rcases List.mem_cons.mp hm with he | hm2
    · subst he
      rcases hsucc with ⟨pg, hpg⟩
      have hself := fmd_success_self u db ms m pg hpg
      rw [hfd] at hself
      exact details_mono u m.title rest db2 ms2 hself
    · exact details_success_mem u hD m hsucc rest db2 ms2 hm2

theorem details_sub (u : Upstream) (t : String) :
    ∀ (todo : List InFlight) (db : DB) (ms : List InFlight),
    t ∈ dbTitles (details_phase u todo db ms).2.1 →
    t ∈ dbTitles db ∨ ∃ m ∈ todo, m.title = t ∧ DetailSuccess (u.detail m.link)
  | [], _, _, h => Or.inl h
  | m :: rest, db, ms, h => by
    simp only [details_phase] at h
    rcases hfd : fetch_movie_details u db ms m with ⟨exn, db2, ms2⟩
    rw [hfd] at h
    have hsub : t ∈ dbTitles db2 →
        t ∈ dbTitles db ∨ ∃ x ∈ m :: rest, x.title = t ∧ DetailSuccess (u.detail x.link) := by
      intro h2
      have h3 := fmd_sub u db ms m t (by rw [hfd]; exact h2)
      rcases h3 with h3 | ⟨h3, h4⟩
      · exact Or.inl h3
      · exact Or.inr ⟨m, List.mem_cons_self m rest, h3.symm, h4⟩
    cases exn with
    | some e => exact hsub h
    | none =>
      rcases details_sub u t rest db2 ms2 h with h2 | ⟨x, hx, hxt, hxs⟩
      · exact hsub h2
      · exact Or.inr ⟨x, List.mem_cons_of_mem m hx, hxt, hxs⟩

theorem details_titles (u : Upstream) :
    ∀ (todo : List InFlight) (db : DB) (ms : List InFlight),
    inFlightTitles (details_phase u todo db ms).2.2 = inFlightTitles ms
  | [], _, _ => rfl
  | m :: rest, db, ms => by
    simp only [details_phase]
    rcases hfd : fetch_movie_details u db ms m with ⟨exn, db2, ms2⟩
    have hts : inFlightTitles ms2 = inFlightTitles ms := by
      have := fmd_titles u db ms m
      rw [hfd] at this
      exact this
    cases exn with
    | some e => exact hts
    | none => rw [details_titles u rest db2 ms2, hts]

theorem details_nochange (u : Upstream) (hD : ∀ l, (u.detail l).isTransport = false) :
    ∀ (todo : List InFlight) (db : DB) (ms : List InFlight),
    (∀ m ∈ todo, ¬ DetailSuccess (u.detail m.link)) →
    details_phase u todo db ms = (none, db, ms)
  | [], _, _, _ => rfl
  | m :: rest, db, ms, h => by
    simp only [details_phase]
    rw [fmd_nosuccess u db ms m (h m (List.mem_cons_self m rest)) (hD m.link)]
    exact details_nochange u hD rest db ms (fun x hx => h x (List.mem_cons_of_mem m hx))

theorem nodup_find_self : ∀ (ms : List InFlight), (inFlightTitles ms).Nodup →
    ∀ m ∈ ms, ms.find? (fun x => decide (x.title = m.title)) = some m
  | [], _, m, hm => absurd hm (List.not_mem_nil m)
  | x :: t, h, m, hm => by
    have hx : x.title ∉ inFlightTitles t := (List.nodup_cons.mp h).1
    rcases List.mem_cons.mp hm with he | hmem
    · subst he
      simp [List.find?_cons]
    · have hne : ¬ x.title = m.title := by
        intro hc
        exact hx (hc ▸ List.mem_map_of_mem (fun y => y.title) hmem)
      simp only [List.find?_cons, hne, decide_eq_true_eq, if_false]
      exact nodup_find_self t (List.nodup_cons.mp h).2 m hmem

theorem nodup_title_inj (ms : List InFlight) (h : (inFlightTitles ms).Nodup)
    (m1 : InFlight) (h1 : m1 ∈ ms) (m2 : InFlight) (h2 : m2 ∈ ms)
    (he : m1.title = m2.title) : m1 = m2 := by
  have f1 := nodup_find_self ms h m1 h1
  have f2 := nodup_find_self ms h m2 h2
  rw [he] at f1
  rw [f1] at f2
  exact Option.some_inj.mp f2

theorem failedStatus_not_success (r : DetailResult) (h : r.failedStatus = true) :
    ¬ DetailSuccess r := by
  cases r with
  | transportError e => simp [DetailResult.failedStatus] at h
  | response s pg =>
    rintro ⟨pg2, he⟩
    injection he with h1 h2
    simp [DetailResult.failedStatus, h1] at h

theorem send_new_movies_payload (ms : List InFlight) (df : Bool) :
    (send_new_movies_email ms df).2 = build_new_movies ms := by
  unfold send_new_movies_email
  by_cases h : build_new_movies ms = []
  · simp [h]
  · simp only [h, if_false]
    cases call_send_email 1 df <;> rfl

theorem build_titles (ms : List InFlight) :
    (build_new_movies ms).map (fun e => e.title) = inFlightTitles ms := by
  unfold build_new_movies inFlightTitles
  rw [List.map_map]
  rfl

/-- C6 witness: the spec's example — known set `{("Movie A", "2020")}`, a
fresh observation of "Movie A" — is dropped by the filter. -/
theorem c6_witness :
    (∃ p ∈ [("Movie A", "2020")], p.1 = "Movie A")
    ∧ parse_entry_step [("Movie A", "2020")] "05-02-2025" []
        ⟨some ("Movie A", "film.html"), ["20:00"]⟩ = [] :=
  ⟨⟨("Movie A", "2020"), by decide, rfl⟩,
   c6_thm [("Movie A", "2020")] "05-02-2025" "Movie A" "film.html" ["20:00"] []
     ⟨("Movie A", "2020"), by decide, rfl⟩⟩

/-- C1 counterexample: in a run where the sole movie's detail fetch returns
HTTP 404, nothing is persisted — but the movie is NOT dropped from the
notification payload: `send_new_movies_email` still builds an entry for it,
contradicting the claim that it is neither persisted nor included. -/
theorem c1_counterexample :
    (run_pipeline uFail dbEmpty ["d1"]).2.1.movies = []
    ∧ (send_new_movies_email (run_pipeline uFail dbEmpty ["d1"]).2.2 false).2.map
        (fun e => e.title) = ["Movie X"]
    ∧ (uFail.detail (base_url ++ "mx")).failedStatus = true :=
  ⟨by decide, by decide, by decide⟩

/-- C1 (amended): a movie whose detail fetch returns a non-success HTTP
status is indeed never persisted in that run (its title is absent from the
store afterwards), but it remains in the in-flight map and IS included in the
notification payload built by `send_new_movies_email`, with the `.get`
defaults standing in for the missing detail fields. -/
theorem c1_amended_thm (u : Upstream) (db : DB) (dates : List String) (m : InFlight) (df : Bool)
    (hm : m ∈ (listing_phase_aux u db dates [] 0).2.1)
    (hf : (u.detail m.link).failedStatus = true)
    (hrun : (run_pipeline u db dates).1 = none) :
    (¬ m.title ∈ dbTitles (run_pipeline u db dates).2.1)
    ∧ m.title ∈ (send_new_movies_email (run_pipeline u db dates).2.2 df).2.map
        (fun e => e.title) := by
  rcases haux : listing_phase_aux u db dates [] 0 with ⟨exn0, C0, reads⟩
  rw [haux] at hm
  have hexn : exn0 = none := by
    cases exn0 with
    | none => rfl
    | some e =>
      unfold run_pipeline at hrun
      rw [haux] at hrun
      exact Option.noConfusion hrun
  subst hexn
  have hrp : run_pipeline u db dates = details_phase u C0 db C0 := by
    unfold run_pipeline
    rw [haux]
  have hQ : ∀ x ∈ C0, existingAnyTitle db x.title = false := by
    have h := aux_Q u db dates [] 0 (fun x hx => absurd hx (List.not_mem_nil x))
    rw [haux] at h
    exact h
  have hN : (inFlightTitles C0).Nodup := by
    have h := aux_nodup u db dates [] 0 List.nodup_nil
    rw [haux] at h
    exact h
  have hnotdb : ¬ m.title ∈ dbTitles db := (EA_false_iff db m.title).mp (hQ m hm)
  constructor
  · intro hc
    rw [hrp] at hc
    rcases details_sub u m.title C0 db C0 hc with h2 | ⟨x, hx, hxt, hxs⟩
    · exact hnotdb h2
    · have hxm : x = m := nodup_title_inj C0 hN x hx m hm hxt
      rw [hxm] at hxs
      exact failedStatus_not_success _ hf hxs
  · rw [hrp, send_new_movies_payload, build_titles, details_titles]
    exact List.mem_map_of_mem (fun x => x.title) hm

/-- C1 witness: the counterexample's run, through the amended theorem. -/
theorem c1_witness :
    ((⟨"Movie X", base_url ++ "mx", [("d1", ["18:00"])], none, none, none, none⟩ : InFlight)
        ∈ (listing_phase_aux uFail dbEmpty ["d1"] [] 0).2.1)
    ∧ ((uFail.detail (base_url ++ "mx")).failedStatus = true)
    ∧ ((run_pipeline uFail dbEmpty ["d1"]).1 = none)
    ∧ ((¬ "Movie X" ∈ dbTitles (run_pipeline uFail dbEmpty ["d1"]).2.1)
        ∧ "Movie X" ∈ (send_new_movies_email (run_pipeline uFail dbEmpty ["d1"]).2.2 false).2.map
            (fun e => e.title)) :=
  ⟨by decide, by decide, by decide,
   c1_amended_thm uFail dbEmpty ["d1"]
     ⟨"Movie X", base_url ++ "mx", [("d1", ["18:00"])], none, none, none, none⟩ false
     (by decide) (by decide) (by decide)⟩

/-- C3: evaluating `main()` at a run that discovers one new movie whose detail
fetch succeeds: the pipeline persists the movie, but `send_new_movies_email`
then calls `email_sender.send_email(new_movies)` — one argument where the
signature `send_email(self, movie_details, num_days)` requires two — so
Python raises an uncaught `TypeError` and the run aborts before any delivery
attempt (the `try/except` that would log a delivery failure sits inside the
body that is never entered).  The already-committed movie row is not rolled
back. -/
theorem c3_eval :
    (main_run uOk dbEmpty ["d1"] false).1
        = some "TypeError: send_email() missing 1 required positional argument: num_days"
    ∧ (main_run uOk dbEmpty ["d1"] false).2.1.movies.map (fun r => r.title) = ["Movie X"] :=
  ⟨by decide, by decide⟩

/-- C9: running the pipeline twice against the same deterministic upstream
(no transport errors anywhere) leaves the store of the first run unchanged —
zero new movies rows, zero new screenings rows, and no updates: every title
persisted by run one is filtered out by the title-only dedup, and every title
that survives run two's filter is one whose detail fetch fails again, so run
two never writes. -/
theorem c9_thm (u : Upstream) (db : DB) (dates : List String)
    (hL : ∀ d ∈ dates, (u.listing d).isTransport = false)
    (hD : ∀ l, (u.detail l).isTransport = false) :
    (run_pipeline u (run_pipeline u db dates).2.1 dates).2.1
      = (run_pipeline u db dates).2.1 := by
  have hlp1 := listing_ok u db dates [] 0 hL
  set C0 := List.foldl addTuple [] ((allTuples u dates).filter
      (fun tu => !(existingAnyTitle db tu.title))) with hC0
  have hrp1 : run_pipeline u db dates = details_phase u C0 db C0 := by
    unfold run_pipeline
    rw [hlp1]
  have hQ0 : ∀ m ∈ C0, existingAnyTitle db m.title = false := by
    have h := aux_Q u db dates [] 0 (fun x hx => absurd hx (List.not_mem_nil x))
    rw [hlp1] at h
    exact h
  have hN0 : (inFlightTitles C0).Nodup := by
    have h := aux_nodup u db dates [] 0 List.nodup_nil
    rw [hlp1] at h
    exact h
  set db1 := (details_phase u C0 db C0).2.1 with hdb1
  have hlp2 := listing_ok u db1 dates [] 0 hL
  set C1 := List.foldl addTuple [] ((allTuples u dates).filter
      (fun tu => !(existingAnyTitle db1 tu.title))) with hC1
  have hrp2 : run_pipeline u db1 dates = details_phase u C1 db1 C1 := by
    unfold run_pipeline
    rw [hlp2]
  have hQ1 : ∀ m ∈ C1, existingAnyTitle db1 m.title = false := by
    have h := aux_Q u db1 dates [] 0 (fun x hx => absurd hx (List.not_mem_nil x))
    rw [hlp2] at h
    exact h
  have hN1 : (inFlightTitles C1).Nodup := by
    have h := aux_nodup u db1 dates [] 0 List.nodup_nil
    rw [hlp2] at h
    exact h
  have hfilterfind : ∀ (dbx : DB) (t : String), existingAnyTitle dbx t = false →
      (((allTuples u dates).filter (fun tu => !(existingAnyTitle dbx tu.title))).find?
          (fun tu => decide (tu.title = t)))
        = (allTuples u dates).find? (fun tu => decide (tu.title = t)) := by
    intro dbx t hx
    rw [find_of_filter]
    apply find_congr_pt
    intro tu
    by_cases he : tu.title = t
    · simp [he, hx]
    · simp [he]
  have hnos : ∀ m2 ∈ C1, ¬ DetailSuccess (u.detail m2.link) := by
    intro m2 hm2 hsucc
    have ht1 : existingAnyTitle db1 m2.title = false := hQ1 m2 hm2
    have ht0 : existingAnyTitle db m2.title = false := by
      rw [EA_false_iff] at ht1 ⊢
      intro hc
      exact ht1 (details_mono u m2.title C0 db C0 hc)
    have hfind2 : C1.find? (fun x => decide (x.title = m2.title)) = some m2 :=
      nodup_find_self C1 hN1 m2 hm2
    have hl2 : some m2.link = ((allTuples u dates).find?
        (fun tu => decide (tu.title = m2.title))).map (fun tu => tu.link) := by
      have h := fold_find_none ((allTuples u dates).filter
          (fun tu => !(existingAnyTitle db1 tu.title))) [] m2.title rfl
      rw [← hC1, hfind2, hfilterfind db1 m2.title ht1] at h
      exact h
    cases hfx : (allTuples u dates).find? (fun tu => decide (tu.title = m2.title)) with
    | none =>
      rw [hfx] at hl2
      exact Option.noConfusion hl2
    | some tu =>
      rw [hfx] at hl2
      have hlink : m2.link = tu.link := Option.some_inj.mp hl2
      have htut : tu.title = m2.title := by
        have h := List.find?_some hfx
        exact of_decide_eq_true h
      have htumem : tu ∈ allTuples u dates := List.mem_of_find?_eq_some hfx
      have htupass : tu ∈ (allTuples u dates).filter
          (fun x => !(existingAnyTitle db x.title)) :=
        List.mem_filter.mpr ⟨htumem, by simp [htut, ht0]⟩
      have htC0 : m2.title ∈ inFlightTitles C0 := by
        rw [hC0, foldl_addTuple_titles]
        exact mem_foldl_dedup _ _ _ (htut ▸ List.mem_map_of_mem (fun x => x.title) htupass)
      rcases List.mem_map.mp htC0 with ⟨m1, hm1, hm1t⟩
      have hfind1 : C0.find? (fun x => decide (x.title = m2.title)) = some m1 := by
        have h := nodup_find_self C0 hN0 m1 hm1
        rw [hm1t] at h
        exact h
      have hl1 : some m1.link = some tu.link := by
        have h := fold_find_none ((allTuples u dates).filter
            (fun x => !(existingAnyTitle db x.title))) [] m2.title rfl
        rw [← hC0, hfind1, hfilterfind db m2.title ht0, hfx] at h
        exact h
      have hsucc1 : DetailSuccess (u.detail m1.link) := by
        rw [Option.some_inj.mp hl1, ← hlink]
        exact hsucc
      have hmem1 : m2.title ∈ dbTitles db1 := by
        have h := details_success_mem u hD m1 hsucc1 C0 db C0 hm1
        rw [hm1t] at h
        exact h
      rw [EA_false_iff] at ht1
      exact ht1 hmem1
  have hnc := details_nochange u hD C1 db1 C1 hnos
  rw [hrp1]
  show (run_pipeline u db1 dates).2.1 = db1
  rw [hrp2, hnc]

/-- C9 witness: a one-date window discovering one movie with a successful
detail fetch; the second run writes nothing. -/
theorem c9_witness :
    (∀ d ∈ ["d1"], (uOk.listing d).isTransport = false)
    ∧ (∀ l, (uOk.detail l).isTransport = false)
    ∧ (run_pipeline uOk (run_pipeline uOk dbEmpty ["d1"]).2.1 ["d1"]).2.1
        = (run_pipeline uOk dbEmpty ["d1"]).2.1 :=
  ⟨by decide, fun l => rfl, c9_thm uOk dbEmpty ["d1"] (by decide) (fun l => rfl)⟩

end Kino
